import Mathlib

/-!
# Verification of the ztock resilient client and trading loop

A shallow embedding of the parts of the `ztock` repository that the
specification's testable properties talk about, together with theorems
settling each property.  Times are modelled as integer seconds, monetary
amounts and prices as rationals (the source uses `Decimal`), and vendor
HTTP traffic as explicit response scripts.
-/

namespace Ztock

/-! ## Credential model (`ztock/clients/saxo.py`, `ztock/databases/saxo.py`)

A stored token is the dict produced by Saxo's token endpoint plus the
`timestamp` key the client adds on issuance.  `timestamp` is `Option`al
because `_validate_tokens` guards on the key being present. -/

structure Token where
  access_token : String
  refresh_token : String
  expires_in : Int
  refresh_token_expires_in : Int
  timestamp : Option Int
deriving DecidableEq, Repr

/-- The age `_validate_tokens` computes: `(now - token_timestamp).seconds`.
Python's `timedelta` normalises to `(days, seconds, microseconds)` with
`0 <= seconds < 86400`, so the `seconds` component of a difference of
`now - ts` whole seconds is `(now - ts) % 86400` (Python-style modulo,
which `Int.emod` matches for a positive modulus). -/
def timedeltaSeconds (now ts : Int) : Int :=
  (now - ts) % 86400

/-- The genuine elapsed age in seconds (what `total_seconds()` would give). -/
def trueAgeSeconds (now ts : Int) : Int :=
  now - ts

/-- Outcome of `SaxoClient._validate_tokens`. `stillValid` is the early
`return True` (no refresh), `refreshed` is the path that calls
`_refresh_token()` and then returns `True`, the other two return `False`. -/
inductive TokenCheck where
  | missing
  | stillValid
  | bothExpired
  | refreshed
deriving DecidableEq, Repr

/-- `SaxoClient._validate_tokens` (clients/saxo.py lines 365-396). -/
def validateTokens (tok : Token) (now : Int) : TokenCheck :=
  match tok.timestamp with
  | none => .missing
  | some ts =>
    let token_age := timedeltaSeconds now ts
    if token_age < tok.expires_in then .stillValid
    else if tok.refresh_token_expires_in ≤ token_age then .bothExpired
    else .refreshed

/-! ## Session manager state (`SaxoClient.authenticate`)

`self._token` is `None` before first use, `{}` (falsy) after a 401
invalidation, and a dict otherwise; the token database holds at most one
row (`store_token` truncates then inserts). -/

inductive MemToken where
  | unset        -- `self._token is None`
  | invalidated  -- `self._token == {}` (falsy, set by the 401 handler)
  | stored (t : Token)
deriving DecidableEq, Repr

structure AuthState where
  mem : MemToken
  db : Option Token
deriving DecidableEq, Repr

inductive AuthOutcome where
  | usedExisting   -- `_validate_tokens` returned True without refreshing
  | refreshed      -- `_validate_tokens` refreshed via `_refresh_token`
  | reauthorized   -- fell through to the interactive OAuth2 flow
deriving DecidableEq, Repr

/-- A token endpoint response with the `timestamp` key the client adds:
`self._token["timestamp"] = datetime.datetime.now()` (both in
`_fetch_token_oauth2` and `_refresh_token`). -/
def stampedToken (resp : Token) (now : Int) : Token :=
  { resp with timestamp := some now }

/-- `SaxoClient.authenticate` (clients/saxo.py lines 110-139).

`refreshResp` and `oauthResp` stand for the token-endpoint responses the
refresh exchange and the interactive OAuth2 exchange would return.
`_refresh_token` (lines 344-363) overwrites `self._token` and the session
header but never calls `self._db.store_token`; only the interactive branch
(line 132) persists. -/
def authenticate (s : AuthState) (now : Int) (refreshResp oauthResp : Token) :
    AuthState × AuthOutcome :=
  -- `if (self._token is None): self._token = self._db.get_token()`
  -- (`get_token` returns the falsy `{}` when the table is empty)
  let mem := match s.mem with
    | .unset =>
      match s.db with
      | some t => MemToken.stored t
      | none => MemToken.invalidated
    | m => m
  -- `if (self._token): if (self._validate_tokens()): return`
  match mem with
  | .stored t =>
    match validateTokens t now with
    | .stillValid => ({ mem := .stored t, db := s.db }, .usedExisting)
    | .refreshed =>
      -- `_refresh_token`: new in-memory token, no `store_token` call
      ({ mem := .stored (stampedToken refreshResp now), db := s.db }, .refreshed)
    | _ =>
      -- `self._token = self._authenticate_oauth2(); self._db.store_token(...)`
      let fresh := stampedToken oauthResp now
      ({ mem := .stored fresh, db := some fresh }, .reauthorized)
  | _ =>
    let fresh := stampedToken oauthResp now
    ({ mem := .stored fresh, db := some fresh }, .reauthorized)

/-- A day-old stored credential used as the failing input for the
age-wrap bug: issued at time 0, access token good for 1200 s, refresh
token good for 3600 s. -/
def dayOldToken : Token :=
  { access_token := "acc", refresh_token := "ref",
    expires_in := 1200, refresh_token_expires_in := 3600,
    timestamp := some 0 }

/-- An arbitrary token-endpoint response used where a refresh or OAuth2
exchange would be answered. -/
def vendorResp : Token :=
  { access_token := "new-acc", refresh_token := "new-ref",
    expires_in := 1200, refresh_token_expires_in := 3600,
    timestamp := none }

/-- C1: the claim says the validity test compares the true elapsed age in
seconds for all ages including a day or more, and that `authenticate` never
leaves in use an access token whose age is at least `expires_in` without
attempting a refresh.  The code computes the age with `timedelta.seconds`,
which wraps at one day: at `now = 86400` a token issued at 0 with
`expires_in = 1200` has computed age `0`, `_validate_tokens` answers
`stillValid`, and `authenticate` returns keeping the day-old token, even
though its true age `86400 ≥ 1200` — and indeed exceeds the refresh
token's lifetime as well. -/
theorem c1_access_token_age_check_wraps_at_one_day :
    timedeltaSeconds 86400 0 = 0
    ∧ validateTokens dayOldToken 86400 = .stillValid
    ∧ (authenticate ⟨.stored dayOldToken, some dayOldToken⟩ 86400
        vendorResp vendorResp)
      = (⟨.stored dayOldToken, some dayOldToken⟩, .usedExisting)
    ∧ dayOldToken.expires_in ≤ trueAgeSeconds 86400 0 := by
  refine ⟨rfl, by decide, by decide, by decide⟩

/-- C7 counterexample: with an access-expired but refresh-valid credential
(true age 2000 s, no day wrap) `authenticate` performs the refresh
exchange, yet the token store still holds the old credential afterwards —
the refreshed credential exists only in memory, so the claim that the
store is written after every successful issuance is false. -/
theorem c7_refreshed_credential_not_persisted :
    (authenticate ⟨.stored dayOldToken, some dayOldToken⟩ 2000
        vendorResp vendorResp).2 = .refreshed
    ∧ (authenticate ⟨.stored dayOldToken, some dayOldToken⟩ 2000
        vendorResp vendorResp).1.mem
      = .stored (stampedToken vendorResp 2000)
    ∧ (authenticate ⟨.stored dayOldToken, some dayOldToken⟩ 2000
        vendorResp vendorResp).1.db = some dayOldToken
    ∧ some dayOldToken ≠ some (stampedToken vendorResp 2000) := by
  refine ⟨by decide, by decide, by decide, by decide⟩

/-- C7 as amended: whenever the stored credential's computed age reaches
`expires_in` but not `refresh_token_expires_in`, `authenticate`
transparently swaps in the refreshed credential (returning normally, no
interactive reauthorization), but persists nothing: the token store is
left unchanged, holding only the pre-refresh credential.  Only the
interactive OAuth2 branch writes the store. -/
theorem c7_silent_refresh_updates_memory_only
    (t refreshResp oauthResp : Token) (db : Option Token) (now ts : Int)
    (hts : t.timestamp = some ts)
    (hexp : t.expires_in ≤ timedeltaSeconds now ts)
    (href : timedeltaSeconds now ts < t.refresh_token_expires_in) :
    authenticate ⟨.stored t, db⟩ now refreshResp oauthResp
      = (⟨.stored (stampedToken refreshResp now), db⟩, .refreshed) := by
  have hcheck : validateTokens t now = .refreshed := by
    unfold validateTokens
    rw [hts]
    simp only [not_lt.mpr hexp, if_false, not_le.mpr href, if_false]
  simp only [authenticate, hcheck]

/-- Witness for the amended C7 theorem at a concrete state: token issued
at 0, checked at 2000 s, `expires_in = 1200`, refresh lifetime 3600. -/
theorem c7_silent_refresh_updates_memory_only_witness :
    authenticate ⟨.stored dayOldToken, some dayOldToken⟩ 2000
        vendorResp vendorResp
      = (⟨.stored (stampedToken vendorResp 2000), some dayOldToken⟩,
         .refreshed) :=
  c7_silent_refresh_updates_memory_only dayOldToken vendorResp vendorResp
    (some dayOldToken) 2000 0 rfl (by decide) (by decide)

/-! ## Outer scheduling loop (`ztock/__init__.py` `run`, `Trader.trade`)

`run` polls every second; a trader is run when `next_run` is set and has
been reached.  `Trader.trade` assigns `self.next_run = None` as its first
statement; on success (and on the handled broker-refresh 401) it assigns
a fresh `calculate_next_run()` before returning, while any other
exception propagates to `run`'s handler with `next_run` still `None`. -/

inductive TradeOutcome where
  | success            -- `trade()` ran to completion
  | unauthorizedLedger -- broker refresh raised HTTP 401 (handled inside `trade`)
  | failure            -- any other exception, propagated out of `trade()`
deriving DecidableEq, Repr

/-- The scheduling test in `run` (line 54):
`if (trader.next_run is None or datetime.datetime.now() < trader.next_run): continue`. -/
def shouldRun (next_run : Option Int) (now : Int) : Bool :=
  match next_run with
  | none => false
  | some t => decide (t ≤ now)

/-- `trader.next_run` after `trade()` finishes or raises (trader.py
lines 531-581).  `resched` stands for the `calculate_next_run()` value. -/
def tradeNextRun (outcome : TradeOutcome) (resched : Int) : Option Int :=
  match outcome with
  | .success => some resched            -- line 580
  | .unauthorizedLedger => some resched -- line 548
  | .failure => none                    -- the None assigned on entry survives

/-- One pass of `run`'s per-trader loop body (lines 52-65) for a trader
whose `trade()` would have the given outcome.  In the `except` branch the
source evaluates `trader.calculate_next_run()` but never assigns the
result, so `next_run` keeps whatever `trade()` left in it. -/
def runLoopStep (next_run : Option Int) (now : Int) (outcome : TradeOutcome)
    (resched : Int) : Option Int :=
  if shouldRun next_run now then
    match outcome with
    | .failure => tradeNextRun .failure resched
    | o => tradeNextRun o resched
  else next_run

/-- C2: the claim says a trader whose `trade()` raises is rescheduled to a
future trading time so the loop keeps running it.  In the code the
`except` handler discards the `calculate_next_run()` result, so after a
failing run `next_run` is `None` and the scheduling test skips that trader
at every later time — it is never run again (the process itself keeps
looping).  A successful or 401-handled run is rescheduled as claimed. -/
theorem c2_failed_trade_run_never_rescheduled (later resched : Int) :
    runLoopStep (some 0) 0 .failure resched = none
    ∧ shouldRun none later = false
    ∧ runLoopStep (some 0) 0 .success resched = some resched := by
  refine ⟨rfl, rfl, rfl⟩

/-! ## Stale-order cancellation (`brokers/saxo.py`, `brokers/ibkr.py`)

Saxo orders carry a vendor `Status` string and an `OrderTime` placement
timestamp (parsed from the UTC datestring); IBKR orders carry a `status`
string and a client id whose trailing `_<timestamp>` field is the
placement time (`int(order.id.split("_")[-1])`), modelled here as the
already-parsed `idTimestamp`. -/

structure SaxoOrder where
  oid : Nat
  orderStatus : String   -- vendor attribute `Status`
  orderTime : Int        -- `OrderTime`, parsed to a UTC timestamp
deriving DecidableEq, Repr

structure IBKROrder where
  oid : Nat
  orderStatus : String   -- vendor attribute `status`
  idTimestamp : Int      -- `int(order.id.split("_")[-1])`
deriving DecidableEq, Repr

/-- The per-order test of `SaxoBroker.cancel_stale_orders` (lines 186-195):
skip unless `Status == "Working"`, cancel when
`(utcnow() - placed_at).total_seconds() > order_lifetime`. -/
def saxoIsStale (now lifetime : Int) (o : SaxoOrder) : Bool :=
  o.orderStatus == "Working" && decide (lifetime < now - o.orderTime)

/-- The selection loop of `SaxoBroker.cancel_stale_orders`. -/
def saxoSelectStale (orders : List SaxoOrder) (lifetime now : Int) :
    List SaxoOrder :=
  match orders with
  | [] => []
  | o :: rest =>
    if o.orderStatus ≠ "Working" then saxoSelectStale rest lifetime now
    else if lifetime < now - o.orderTime then
      o :: saxoSelectStale rest lifetime now
    else saxoSelectStale rest lifetime now

/-- `SaxoBroker.cancel_stale_orders` (lines 167-198): collect the stale
orders, then issue a single batched `cancel_order` call when the list is
non-empty.  Returns the cancelled orders and the number of DELETE calls. -/
def saxoCancelStaleOrders (orders : List SaxoOrder) (lifetime now : Int) :
    List SaxoOrder × Nat :=
  let cancelled := saxoSelectStale orders lifetime now
  (cancelled, if cancelled.isEmpty then 0 else 1)

/-- The per-order test of `IBKR.cancel_stale_orders` (lines 235-243):
skip unless `status == "Active"`, cancel when the age since the id's
embedded placement timestamp exceeds `order_lifetime`. -/
def ibkrIsStale (now lifetime : Int) (o : IBKROrder) : Bool :=
  o.orderStatus == "Active" && decide (lifetime < now - o.idTimestamp)

/-- `IBKR.cancel_stale_orders` (lines 216-244): cancels each stale order
with its own `cancel_order` call, appending the per-order status result.
Returns the cancelled orders (1:1 with the returned vendor statuses) and
the number of DELETE calls. -/
def ibkrCancelStaleOrders (orders : List IBKROrder) (lifetime now : Int) :
    List IBKROrder × Nat :=
  match orders with
  | [] => ([], 0)
  | o :: rest =>
    let (cs, n) := ibkrCancelStaleOrders rest lifetime now
    if o.orderStatus ≠ "Active" then (cs, n)
    else if lifetime < now - o.idTimestamp then (o :: cs, n + 1)
    else (cs, n)

/-- The Saxo selection loop picks exactly the `filter` of the staleness
test. -/
theorem saxoSelectStale_eq_filter (orders : List SaxoOrder)
    (lifetime now : Int) :
    saxoSelectStale orders lifetime now
      = orders.filter (saxoIsStale now lifetime) := by
  induction orders with
  | nil => rfl
  | cons o rest ih =>
    by_cases hs : o.orderStatus = "Working"
    · by_cases ht : lifetime < now - o.orderTime
      · have hp : saxoIsStale now lifetime o = true := by
          simp [saxoIsStale, hs, ht]
        simp [saxoSelectStale, hs, ht, List.filter_cons, hp, ih]
      · have hp : saxoIsStale now lifetime o = false := by
          simp [saxoIsStale, hs, ht]
        simp [saxoSelectStale, hs, ht, List.filter_cons, hp, ih]
    · have hp : saxoIsStale now lifetime o = false := by
        simp [saxoIsStale, hs]
      simp [saxoSelectStale, hs, List.filter_cons, hp, ih]

/-- The IBKR loop cancels exactly the `filter` of its staleness test,
with one cancel call per stale order. -/
theorem ibkrCancelStaleOrders_eq_filter (orders : List IBKROrder)
    (lifetime now : Int) :
    ibkrCancelStaleOrders orders lifetime now
      = (orders.filter (ibkrIsStale now lifetime),
         (orders.filter (ibkrIsStale now lifetime)).length) := by
  induction orders with
  | nil => rfl
  | cons o rest ih =>
    by_cases hs : o.orderStatus = "Active"
    · by_cases ht : lifetime < now - o.idTimestamp
      · have hp : ibkrIsStale now lifetime o = true := by
          simp [ibkrIsStale, hs, ht]
        simp [ibkrCancelStaleOrders, hs, ht, List.filter_cons, hp, ih]
      · have hp : ibkrIsStale now lifetime o = false := by
          simp [ibkrIsStale, hs, ht]
        simp [ibkrCancelStaleOrders, hs, ht, List.filter_cons, hp, ih]
    · have hp : ibkrIsStale now lifetime o = false := by
        simp [ibkrIsStale, hs]
      simp [ibkrCancelStaleOrders, hs, List.filter_cons, hp, ih]

/-- C3: for every order list and every `max_age`, both variants cancel
exactly the orders in the vendor's active/working state whose age since
placement exceeds `max_age` (all other orders receive no cancel call),
and an empty input yields an empty result with zero cancel calls.  The
Saxo variant batches all cancellations into one call, the IBKR variant
issues one per order; the returned cancelled set is the same filter in
both, so the caller sees no behavioural difference. -/
theorem c3_cancel_stale_orders_exact (saxoOrders : List SaxoOrder)
    (ibkrOrders : List IBKROrder) (lifetime now : Int) :
    (saxoCancelStaleOrders saxoOrders lifetime now).1
      = saxoOrders.filter (saxoIsStale now lifetime)
    ∧ (saxoCancelStaleOrders saxoOrders lifetime now).2
      = (if (saxoOrders.filter (saxoIsStale now lifetime)).isEmpty
         then 0 else 1)
    ∧ ibkrCancelStaleOrders ibkrOrders lifetime now
      = (ibkrOrders.filter (ibkrIsStale now lifetime),
         (ibkrOrders.filter (ibkrIsStale now lifetime)).length)
    ∧ saxoCancelStaleOrders [] lifetime now = ([], 0)
    ∧ ibkrCancelStaleOrders [] lifetime now = ([], 0) := by
  refine ⟨?_, ?_, ibkrCancelStaleOrders_eq_filter ibkrOrders lifetime now,
    rfl, rfl⟩
  · exact saxoSelectStale_eq_filter saxoOrders lifetime now
  · unfold saxoCancelStaleOrders
    rw [saxoSelectStale_eq_filter]

/-! ## Paginated position listing (`brokers/saxo.py`, `brokers/ibkr.py`)

A vendor listing is modelled as the list of pages the vendor would serve:
for Saxo a `__next` continuation exists exactly while further pages
remain, for IBKR page ids `0, 1, 2, …` index into the same list and pages
past the end are empty.  Quantities are the `Decimal` amounts
(`parse_decimal`), modelled as rationals. -/

structure VendorPosition where
  pid : String
  quantity : ℚ
deriving DecidableEq, Repr

/-- The zero-quantity filter both brokers apply while unpacking a page
(`if (position.quantity == 0): continue`). -/
def filterNonzeroQuantity : List VendorPosition → List VendorPosition
  | [] => []
  | p :: rest =>
    if p.quantity = 0 then filterNonzeroQuantity rest
    else p :: filterNonzeroQuantity rest

/-- `SaxoBroker.get_positions` (lines 200-231): unpack the first page,
then keep following `__next` until absent, filtering zero quantities on
every page. -/
def saxoGetPositions : List (List VendorPosition) → List VendorPosition
  | [] => []
  | page :: rest => filterNonzeroQuantity page ++ saxoGetPositions rest

/-- `IBKR.get_positions` (lines 246-305): fetch page `page_id`, filter
zero quantities, and recurse to `page_id + 1` only when this page
contributed at least one position
(`if (len(positions) > 0): positions.extend(self.get_positions(...))`). -/
def ibkrGetPositions : List (List VendorPosition) → List VendorPosition
  | [] => []
  | page :: rest =>
    let ps := filterNonzeroQuantity page
    if ps.isEmpty then ps else ps ++ ibkrGetPositions rest

theorem filterNonzeroQuantity_append (a b : List VendorPosition) :
    filterNonzeroQuantity (a ++ b)
      = filterNonzeroQuantity a ++ filterNonzeroQuantity b := by
  induction a with
  | nil => rfl
  | cons p rest ih =>
    by_cases hq : p.quantity = 0
    · simp [filterNonzeroQuantity, hq, ih]
    · simp [filterNonzeroQuantity, hq, ih]

theorem saxoGetPositions_eq_join_filter (pages : List (List VendorPosition)) :
    saxoGetPositions pages = filterNonzeroQuantity pages.flatten := by
  induction pages with
  | nil => rfl
  | cons page rest ih =>
    simp [saxoGetPositions, List.flatten, filterNonzeroQuantity_append, ih]

/-- The IBKR recursion agrees with the full-listing filter as long as
every page before the last contributes at least one non-zero position. -/
theorem ibkrGetPositions_eq_join_filter :
    ∀ pages : List (List VendorPosition),
      (∀ page ∈ pages.dropLast, filterNonzeroQuantity page ≠ []) →
      ibkrGetPositions pages = filterNonzeroQuantity pages.flatten
  | [], _ => rfl
  | [page], _ => by
    cases hps : filterNonzeroQuantity page with
    | nil => simp [ibkrGetPositions, List.flatten, hps]
    | cons q qs =>
      simp [ibkrGetPositions, List.flatten, filterNonzeroQuantity_append,
        hps, filterNonzeroQuantity]
  | page :: r :: rs, h => by
    have hdrop : List.dropLast (page :: r :: rs)
        = page :: List.dropLast (r :: rs) := rfl
    have hpage : filterNonzeroQuantity page ≠ [] := by
      refine h page ?_
      rw [hdrop]; exact List.mem_cons_self _ _
    have ih := ibkrGetPositions_eq_join_filter (r :: rs)
      (fun p hp => h p (by rw [hdrop]; exact List.mem_cons_of_mem _ hp))
    have hstep : ibkrGetPositions (page :: r :: rs)
        = (if (filterNonzeroQuantity page).isEmpty then
             filterNonzeroQuantity page
           else filterNonzeroQuantity page ++ ibkrGetPositions (r :: rs)) :=
      rfl
    cases hps : filterNonzeroQuantity page with
    | nil => exact absurd hps hpage
    | cons q qs =>
      rw [hstep, hps, ih]
      simp [List.flatten_cons, filterNonzeroQuantity_append, hps]

/-- A page holding a single zero-quantity entry, and a later page with a
single open position. -/
def zeroQtyPage : List VendorPosition := [{ pid := "p0", quantity := 0 }]

def laterPage : List VendorPosition := [{ pid := "p1", quantity := 1 }]

/-- C4 counterexample: on a two-page listing whose first page holds only
a zero-quantity entry, the IBKR variant stops paging after the first page
(its recursion keys on the *filtered* page being non-empty, not on a
remaining continuation) and returns `[]`, while the non-zero positions of
all pages are `[p1]` — which is what the Saxo variant returns on the same
listing. -/
theorem c4_ibkr_pagination_stops_at_zero_quantity_page :
    ibkrGetPositions [zeroQtyPage, laterPage] = []
    ∧ filterNonzeroQuantity ([zeroQtyPage, laterPage].flatten) = laterPage
    ∧ saxoGetPositions [zeroQtyPage, laterPage] = laterPage := by
  refine ⟨by decide, by decide, by decide⟩

/-- C4 as amended: the Saxo variant pages until no continuation remains
and returns exactly the non-zero-quantity positions of all pages, for
every listing (including an empty first page, which yields `[]`, not an
error); the IBKR variant does so provided every page before the last
contributes at least one non-zero-quantity position — a page consisting
solely of zero-quantity entries ends its pagination early. -/
theorem c4_positions_pagination_amended (pages : List (List VendorPosition))
    (h : ∀ page ∈ pages.dropLast, filterNonzeroQuantity page ≠ []) :
    saxoGetPositions pages = filterNonzeroQuantity pages.flatten
    ∧ ibkrGetPositions pages = filterNonzeroQuantity pages.flatten
    ∧ saxoGetPositions [[]] = []
    ∧ ibkrGetPositions [[]] = [] :=
  ⟨saxoGetPositions_eq_join_filter pages,
   ibkrGetPositions_eq_join_filter pages h, rfl, rfl⟩

/-- Witness for the amended C4 theorem on a concrete two-page listing
whose first page has a non-zero entry. -/
theorem c4_positions_pagination_amended_witness :
    saxoGetPositions [laterPage, zeroQtyPage]
        = filterNonzeroQuantity ([laterPage, zeroQtyPage].flatten)
    ∧ ibkrGetPositions [laterPage, zeroQtyPage]
        = filterNonzeroQuantity ([laterPage, zeroQtyPage].flatten)
    ∧ saxoGetPositions [[]] = []
    ∧ ibkrGetPositions [[]] = [] :=
  c4_positions_pagination_amended [laterPage, zeroQtyPage]
    (by decide)

/-! ## Market buy order sizing (`Trader.place_market_buy_order`)

trader.py lines 95-191.  Quantities are Python ints (`math.floor`),
prices and amounts `Decimal`s, modelled as rationals.  The two
adjustment `while` loops are totalised with an explicit iteration count:
for the upward loop the count is exactly the number of iterations the
Python loop performs when `price > 0` (and the loop guard is false from
the start whenever the count is zero); the downward loop performs at
most `quantity` iterations because it stops at `quantity == 1`.  (For a
negative price with the guard true the Python upward loop would never
terminate; the totalised model returns the current quantity there.) -/

/-- `quantity = math.floor(buy_amount / account_currency_price)` with
`buy_amount = cash_balance * buy_fraction`. -/
def rawBuyQuantity (cash_balance buy_fraction account_currency_price : ℚ) :
    Int :=
  ⌊(cash_balance * buy_fraction) / account_currency_price⌋

/-- `while (account_currency_price and order_amount < min_buy_amount):
quantity += 1` — one constructor step per loop iteration. -/
def adjustToMinBuyAux (price min_buy_amount : ℚ) : Nat → Int → Int
  | 0, q => q
  | fuel + 1, q =>
    if price ≠ 0 ∧ (q : ℚ) * price < min_buy_amount then
      adjustToMinBuyAux price min_buy_amount fuel (q + 1)
    else q

/-- The upward adjustment loop, run for its exact iteration count
`⌈(min_buy_amount - q·price) / price⌉` (clamped to 0 when the guard
fails immediately). -/
def adjustToMinBuy (price min_buy_amount : ℚ) (q : Int) : Int :=
  adjustToMinBuyAux price min_buy_amount
    (⌈(min_buy_amount - (q : ℚ) * price) / price⌉.toNat) q

/-- `while (account_currency_price and quantity > 1 and
order_amount > max_buy_amount): quantity -= 1`. -/
def adjustToMaxBuyAux (price max_buy_amount : ℚ) : Nat → Int → Int
  | 0, q => q
  | fuel + 1, q =>
    if price ≠ 0 ∧ 1 < q ∧ max_buy_amount < (q : ℚ) * price then
      adjustToMaxBuyAux price max_buy_amount fuel (q - 1)
    else q

/-- The downward adjustment loop; `q` iterations always suffice since
each one decrements `q` and the guard needs `1 < q`. -/
def adjustToMaxBuy (price max_buy_amount : ℚ) (q : Int) : Int :=
  adjustToMaxBuyAux price max_buy_amount q.toNat q

/-- `Trader.place_market_buy_order` order sizing (trader.py lines
119-174): floor-divide the cash fraction by the price, push the quantity
up to the configured minimum buy amount, pull it down to the configured
maximum (returning no order when a single share already exceeds the
maximum), then give up when the order amount exceeds
`cash_balance + min_broker_cash_balance`.  `none` means no order is
placed.  A missing or zero (falsy) `max_buy_amount` disables the maximum
clamp; the `if (order_amount < min_buy_amount)` guard around the upward
loop is subsumed by the loop condition. -/
def placeMarketBuyQuantity (cash_balance buy_fraction : ℚ)
    (account_currency_price min_buy_amount : ℚ) (max_buy_amount : Option ℚ)
    (min_broker_cash_balance : ℚ) : Option Int :=
  let q0 := rawBuyQuantity cash_balance buy_fraction account_currency_price
  let q1 := adjustToMinBuy account_currency_price min_buy_amount q0
  let afterMax : Option Int :=
    match max_buy_amount with
    | some m =>
      if m ≠ 0 ∧ m < (q1 : ℚ) * account_currency_price then
        if q1 = 1 then none
        else some (adjustToMaxBuy account_currency_price m q1)
      else some q1
    | none => some q1
  match afterMax with
  | none => none
  | some q =>
    if cash_balance + min_broker_cash_balance < (q : ℚ) * account_currency_price
    then none
    else some q

/-- C5: order sizing floors the quantity, then clamps up to the minimum
and down to the maximum in that order.  On the spec's inputs
(`cash_balance = 10000`, `buy_fraction = 0.1`, `price = 33.33`,
`min_buy_amount = 500`): the raw quantity is `⌊1000 / 33.33⌋ = 30` with
amount `999.9 ≥ 500` (no upward adjustment) and the placed quantity is
30; adding `max_buy_amount = 500` decrements the quantity to 15 with
amount `499.95 ≤ 500`. -/
theorem c5_order_sizing_examples :
    rawBuyQuantity 10000 (1/10) (3333/100) = 30
    ∧ (30 : ℚ) * (3333/100) = 9999/10
    ∧ placeMarketBuyQuantity 10000 (1/10) (3333/100) 500 none 0 = some 30
    ∧ placeMarketBuyQuantity 10000 (1/10) (3333/100) 500 (some 500) 0
        = some 15
    ∧ (15 : ℚ) * (3333/100) = 49995/100 := by
  have hfuel : (⌈-(49990/3333 : ℚ)⌉ : ℤ).toNat = 0 := by
    rw [Int.toNat_eq_zero, Int.ceil_le]
    norm_num
  refine ⟨?_, by norm_num, ?_, ?_, by norm_num⟩
  · norm_num [rawBuyQuantity]
  · norm_num [placeMarketBuyQuantity, rawBuyQuantity, adjustToMinBuy,
      adjustToMinBuyAux, adjustToMaxBuy, adjustToMaxBuyAux, hfuel]
  · norm_num [placeMarketBuyQuantity, rawBuyQuantity, adjustToMinBuy,
      adjustToMinBuyAux, adjustToMaxBuy, adjustToMaxBuyAux, hfuel]

/-! ## Request executor (`clients/client.py`, `SaxoClient.request`)

An HTTP exchange is modelled as a script `Nat → HttpResp` mapping the
index of each physical call to the vendor's response.  `raise_for_status`
raises exactly for statuses `≥ 400`. -/

structure HttpResp where
  status : Nat
  rateLimitBody : Bool  -- body parses with `ErrorCode == "RateLimitExceeded"`
deriving DecidableEq, Repr

/-- `Client.request` (clients/client.py lines 44-128) starting at call
index `i`: one HTTP call; on an error status, retry only when `retries`
is truthy (not `None`, not 0) and the status is in
`retry_on_status_codes`, decrementing the budget.  Returns the outcome
and the number of physical calls made.  The Saxo client passes
`retries=None` and has `retry_on_status_codes = []`. -/
def clientRequest (retryCodes : List Nat) (http : Nat → HttpResp) :
    Option Nat → Nat → Except HttpResp HttpResp × Nat
  | retries, i =>
    let r := http i
    if r.status < 400 then (.ok r, 1)
    else
      match retries with
      | some (n + 1) =>
        if r.status ∈ retryCodes then
          let rec2 := clientRequest retryCodes http (some n) (i + 1)
          (rec2.1, rec2.2 + 1)
        else (.error r, 1)
      | _ => (.error r, 1)

/-- The `try` block of `SaxoClient.request` (lines 201-214): the base
call, plus — when the body carries the rate-limit error code — a sleep
and one more base call whose result is returned; an `HTTPError` from
either call escapes to the `except` clauses. -/
def saxoTryBlock (http : Nat → HttpResp) : Except HttpResp HttpResp × Nat :=
  let first := clientRequest [] http none 0
  match first with
  | (.ok r1, k1) =>
    if r1.rateLimitBody then
      let second := clientRequest [] http none k1
      (second.1, k1 + second.2)
    else (.ok r1, k1)
  | (.error e, k1) => (.error e, k1)

structure SaxoRequestResult where
  outcome : Except HttpResp HttpResp
  httpCalls : Nat
  invalidations : Nat  -- executions of `self._token = {}`
  reauths : Nat        -- executions of `self.authenticate()` in the 401 handler
deriving Repr

/-- `SaxoClient.request` (clients/saxo.py lines 185-246).  On a caught
401 the handler invalidates the in-memory token, reauthenticates, and
issues exactly one more base call, whose error (if any) is raised out of
the handler uncaught; on a caught 429 it sleeps and issues one more base
call; any other error status is re-raised. -/
def saxoRequest (http : Nat → HttpResp) : SaxoRequestResult :=
  match saxoTryBlock http with
  | (.ok r, k) => ⟨.ok r, k, 0, 0⟩
  | (.error e, k) =>
    if e.status = 401 then
      let retry := clientRequest [] http none k
      ⟨retry.1, k + retry.2, 1, 1⟩
    else if e.status = 429 then
      let retry := clientRequest [] http none k
      ⟨retry.1, k + retry.2, 0, 0⟩
    else ⟨.error e, k, 0, 0⟩

/-- With no retry budget the base request makes exactly one call. -/
theorem clientRequest_noBudget_calls (http : Nat → HttpResp) (i : Nat) :
    (clientRequest [] http none i).2 = 1 := by
  by_cases h : (http i).status < 400 <;> simp [clientRequest, h]

/-- Every path through `SaxoClient.request` invalidates the credential at
most once. -/
theorem saxoRequest_invalidations_le_one (http : Nat → HttpResp) :
    (saxoRequest http).invalidations ≤ 1 := by
  unfold saxoRequest
  rcases saxoTryBlock http with ⟨out, k⟩
  cases out with
  | ok r => simp
  | error e =>
    by_cases h1 : e.status = 401
    · simp [h1]
    · by_cases h2 : e.status = 429 <;> simp [h1, h2]

/-- C6: when the first call of an authenticated request answers 401, the
executor invalidates the session credential exactly once, reauthenticates
exactly once, and retries the call exactly once (two physical calls in
total); if the retried call answers 401 again, that error is the final
outcome, propagated to the caller.  In general no execution performs more
than one invalidation. -/
theorem c6_unauthorized_retry_once (http : Nat → HttpResp)
    (h1 : (http 0).status = 401) :
    (saxoRequest http).invalidations = 1
    ∧ (saxoRequest http).reauths = 1
    ∧ (saxoRequest http).httpCalls = 2
    ∧ ((http 1).status = 401 → (saxoRequest http).outcome = .error (http 1))
    ∧ ∀ g : Nat → HttpResp, (saxoRequest g).invalidations ≤ 1 := by
  have hfirst : clientRequest [] http none 0 = (.error (http 0), 1) := by
    simp [clientRequest, h1]
  have htry : saxoTryBlock http = (.error (http 0), 1) := by
    simp [saxoTryBlock, hfirst]
  have hreq : saxoRequest http
      = ⟨(clientRequest [] http none 1).1,
         1 + (clientRequest [] http none 1).2, 1, 1⟩ := by
    simp [saxoRequest, htry, h1]
  refine ⟨by rw [hreq], by rw [hreq], ?_, ?_, saxoRequest_invalidations_le_one⟩
  · rw [hreq]
    simp [clientRequest_noBudget_calls]
  · intro h2
    rw [hreq]
    simp [clientRequest, h2]

/-- An HTTP script answering 401 to the first two calls. -/
def twice401Script : Nat → HttpResp :=
  fun i => if i ≤ 1 then ⟨401, false⟩ else ⟨200, false⟩

/-- Witness for C6 on the double-401 script: one invalidation, one
reauthentication, two calls, and the second 401 as the propagated
outcome. -/
theorem c6_unauthorized_retry_once_witness :
    (saxoRequest twice401Script).invalidations = 1
    ∧ (saxoRequest twice401Script).reauths = 1
    ∧ (saxoRequest twice401Script).httpCalls = 2
    ∧ (saxoRequest twice401Script).outcome = .error ⟨401, false⟩ := by
  have h := c6_unauthorized_retry_once twice401Script rfl
  exact ⟨h.1, h.2.1, h.2.2.1, h.2.2.2.1 rfl⟩

/-! ## Order confirmation messages (`IBKR.place_order`, `_send_order_reply`)

A vendor confirmation message (`brokers/message.py`) has an id and a
content list (the constructor wraps a bare string into a one-element
list).  `place_order` (ibkr.py lines 420-458) walks the list in reverse,
auto-confirms the two recognised prompt types via `_send_order_reply`
and pops them from the list attached to the returned order; everything
else stays in the list and is logged as an error. -/

structure Message where
  mid : Nat
  content : List String
deriving DecidableEq, Repr

/-- Python `str.startswith(pre)`. -/
def pyStartsWith (s pre : String) : Bool :=
  pre.data.isPrefixOf s.data

/-- Python `sub in s` (substring containment). -/
def pyIncludes (s sub : String) : Bool :=
  decide (sub.data <:+: s.data)

/-- The warning text recognised by the first branch (source lines
435-439, two adjacent string literals). -/
def missingMarketDataText : String :=
  "You are trying to submit an order without having " ++
  "market data for this instrument"

/-- The marker recognised by the second branch (source line 447). -/
def capPriceConfirmText : String := "<h4>Confirm Mandatory Cap Price</h4>"

def hasMissingMarketDataWarning (m : Message) : Bool :=
  m.content.any (fun c => pyStartsWith c missingMarketDataText)

def hasCapPriceConfirm (m : Message) : Bool :=
  m.content.any (fun c => pyIncludes c capPriceConfirmText)

/-- A message the loop auto-confirms: non-falsy content matching one of
the two recognised prompt types. -/
def handledOrderMessage (m : Message) : Bool :=
  !m.content.isEmpty
    && (hasMissingMarketDataWarning m || hasCapPriceConfirm m)

/-- The reversed-index loop of `place_order`: the recursion processes the
tail (higher indices) before the head, matching
`for i, message in reversed(list(enumerate(messages)))`, and popping at
descending indices leaves lower indices untouched.  Returns the
`_send_order_reply(message, True)` targets in reply order and the
messages left unresolved on the order. -/
def processOrderMessages : List Message → List Message × List Message
  | [] => ([], [])
  | m :: rest =>
    let tail := processOrderMessages rest
    if m.content.isEmpty then (tail.1, m :: tail.2)
    else if hasMissingMarketDataWarning m then (tail.1 ++ [m], tail.2)
    else if hasCapPriceConfirm m then (tail.1 ++ [m], tail.2)
    else (tail.1, m :: tail.2)

theorem processOrderMessages_eq_filter (msgs : List Message) :
    (processOrderMessages msgs).1
      = (msgs.filter handledOrderMessage).reverse
    ∧ (processOrderMessages msgs).2
      = msgs.filter (fun m => !handledOrderMessage m) := by
  induction msgs with
  | nil => exact ⟨rfl, rfl⟩
  | cons m rest ih =>
    cases he : m.content.isEmpty with
    | true =>
      have hh : handledOrderMessage m = false := by
        simp [handledOrderMessage, he]
      simp [processOrderMessages, he, List.filter_cons, hh, ih.1, ih.2]
    | false =>
      cases h1 : hasMissingMarketDataWarning m with
      | true =>
        have hh : handledOrderMessage m = true := by
          simp [handledOrderMessage, he, h1]
        simp [processOrderMessages, he, h1, List.filter_cons, hh, ih.1, ih.2]
      | false =>
        cases h2 : hasCapPriceConfirm m with
        | true =>
          have hh : handledOrderMessage m = true := by
            simp [handledOrderMessage, he, h1, h2]
          simp [processOrderMessages, he, h1, h2, List.filter_cons, hh,
            ih.1, ih.2]
        | false =>
          have hh : handledOrderMessage m = false := by
            simp [handledOrderMessage, he, h1, h2]
          simp [processOrderMessages, he, h1, h2, List.filter_cons, hh,
            ih.1, ih.2]

/-- C8: after `place_order` processes the vendor's confirmation messages,
the auto-confirmed replies are exactly the messages matching a recognised
prompt type (the known missing-market-data warning text or the mandatory
cap-price confirmation), each removed from the order's unresolved list,
and every message with unrecognised (or empty) text receives no reply and
stays in the unresolved list. -/
theorem c8_order_confirmation_messages (msgs : List Message) :
    (processOrderMessages msgs).1
      = (msgs.filter handledOrderMessage).reverse
    ∧ (processOrderMessages msgs).2
      = msgs.filter (fun m => !handledOrderMessage m)
    ∧ (∀ m ∈ msgs, handledOrderMessage m = true →
        m ∈ (processOrderMessages msgs).1
        ∧ m ∉ (processOrderMessages msgs).2)
    ∧ (∀ m ∈ msgs, handledOrderMessage m = false →
        m ∉ (processOrderMessages msgs).1
        ∧ m ∈ (processOrderMessages msgs).2) := by
  obtain ⟨hc, hu⟩ := processOrderMessages_eq_filter msgs
  refine ⟨hc, hu, ?_, ?_⟩
  · intro m hm hh
    constructor
    · rw [hc, List.mem_reverse, List.mem_filter]
      exact ⟨hm, hh⟩
    · rw [hu, List.mem_filter]
      intro hcontra
      rw [hh] at hcontra
      exact absurd hcontra.2 (by simp)
  · intro m hm hh
    constructor
    · rw [hc, List.mem_reverse, List.mem_filter]
      intro hcontra
      rw [hh] at hcontra
      exact absurd hcontra.2 (by simp)
    · rw [hu, List.mem_filter]
      exact ⟨hm, by rw [hh]; rfl⟩

/-- A concrete missing-market-data prompt, cap-price prompt, unknown
prompt and empty message. -/
def marketDataMsg : Message :=
  { mid := 0,
    content := ["You are trying to submit an order without having " ++
      "market data for this instrument. Proceed?"] }

def capPriceMsg : Message :=
  { mid := 1,
    content := ["Please <h4>Confirm Mandatory Cap Price</h4> to continue"] }

def unknownMsg : Message :=
  { mid := 2, content := ["Exotic venue closure warning"] }

def emptyMsg : Message :=
  { mid := 3, content := [] }

/-- Witness for C8 on a four-message batch: the two recognised prompts
are confirmed (in reverse order) and removed, the unknown and empty
messages stay unresolved. -/
theorem c8_order_confirmation_messages_witness :
    (processOrderMessages [marketDataMsg, capPriceMsg, unknownMsg, emptyMsg]).1
      = [capPriceMsg, marketDataMsg]
    ∧ (processOrderMessages
        [marketDataMsg, capPriceMsg, unknownMsg, emptyMsg]).2
      = [unknownMsg, emptyMsg]
    ∧ unknownMsg ∉ (processOrderMessages
        [marketDataMsg, capPriceMsg, unknownMsg, emptyMsg]).1 := by
  have h := c8_order_confirmation_messages
    [marketDataMsg, capPriceMsg, unknownMsg, emptyMsg]
  refine ⟨?_, ?_, ?_⟩
  · rw [h.1]
    decide
  · rw [h.2.1]
    decide
  · exact ((h.2.2.2 unknownMsg (by decide) (by decide)).1)

/-! ## Order / Position construction (`brokers/order.py`, `brokers/position.py`)

Both constructors set their explicit core fields first and then run
`for key, value in kwargs.items(): if (not hasattr(self, key)):
setattr(self, key, value)`.  Instance attributes are modelled as an
association list in insertion order; `hasattr` is lookup success.
(Python's `hasattr` also sees class-level methods such as `__repr__`;
the bags in question carry vendor field names, and the claim is about
the core data fields, so only instance attributes are modelled.)
Attribute values are opaque vendor values; `Position.__init__` stores
`Symbol(symbol)`, a fresh object wrapping the passed name, modelled by
the `symbolObj` constructor. -/

inductive PyVal where
  | raw (tag : Nat)          -- an opaque value from the vendor payload
  | symbolObj (name : PyVal) -- the `Symbol(symbol)` object
deriving DecidableEq, Repr

/-- The kwargs loop shared by `Order.__init__` and `Position.__init__`:
each key is attached only when not already set. -/
def applyKwargs : List (String × PyVal) → List (String × PyVal) →
    List (String × PyVal)
  | attrs, [] => attrs
  | attrs, (k, v) :: rest =>
    if (attrs.lookup k).isSome then applyKwargs attrs rest
    else applyKwargs (attrs ++ [(k, v)]) rest

/-- `Order.__init__` (order.py lines 9-17): `self.id = id`, then the
kwargs loop. -/
def mkOrderAttrs (oid : PyVal) (kwargs : List (String × PyVal)) :
    List (String × PyVal) :=
  applyKwargs [("id", oid)] kwargs

def positionCoreNames : List String :=
  ["id", "symbol", "quantity", "market_value", "pnl", "currency",
   "exchange_rate"]

/-- The explicit assignments of `Position.__init__` (position.py lines
14-53), in source order; `symbol` is stored as `Symbol(symbol)`. -/
def positionCoreAttrs (pid symbol quantity market_value pnl currency
    exchange_rate : PyVal) : List (String × PyVal) :=
  [("id", pid), ("symbol", .symbolObj symbol), ("quantity", quantity),
   ("market_value", market_value), ("pnl", pnl), ("currency", currency),
   ("exchange_rate", exchange_rate)]

/-- `Position.__init__`: core assignments then the kwargs loop. -/
def mkPositionAttrs (pid symbol quantity market_value pnl currency
    exchange_rate : PyVal) (kwargs : List (String × PyVal)) :
    List (String × PyVal) :=
  applyKwargs
    (positionCoreAttrs pid symbol quantity market_value pnl currency
      exchange_rate)
    kwargs

theorem applyKwargs_lookup (kwargs attrs : List (String × PyVal))
    (k : String) :
    (applyKwargs attrs kwargs).lookup k
      = ((attrs.lookup k).or (kwargs.lookup k)) := by
  induction kwargs generalizing attrs with
  | nil => simp [applyKwargs]
  | cons kv rest ih =>
    obtain ⟨k1, v⟩ := kv
    by_cases hk : (attrs.lookup k1).isSome
    · rw [applyKwargs, if_pos hk, ih]
      by_cases hkk : k = k1
      · subst hkk
        obtain ⟨w, hw⟩ := Option.isSome_iff_exists.mp hk
        simp [hw, List.lookup]
      · simp [List.lookup, beq_false_of_ne hkk]
    · rw [applyKwargs, if_neg hk, ih, List.lookup_append]
      by_cases hkk : k = k1
      · subst hkk
        rw [Option.not_isSome_iff_eq_none.mp hk]
        simp [List.lookup]
      · simp [List.lookup, beq_false_of_ne hkk]

/-- C10: constructing an `Order` or a `Position` with an arbitrary vendor
attribute bag never overwrites the explicitly-set core fields — even for
bag keys named like core fields — and exactly the bag keys not already
set become new attributes (duplicate bag keys keep the first value, and
bag values never replace an existing attribute).  The stored `symbol` is
the `Symbol` object wrapping the explicit argument. -/
theorem c10_attribute_bag_never_overwrites_core
    (pid symbol quantity market_value pnl currency exchange_rate
      oid : PyVal)
    (posBag ordBag : List (String × PyVal)) :
    (mkPositionAttrs pid symbol quantity market_value pnl currency
        exchange_rate posBag).lookup "id" = some pid
    ∧ (mkPositionAttrs pid symbol quantity market_value pnl currency
        exchange_rate posBag).lookup "symbol" = some (.symbolObj symbol)
    ∧ (mkPositionAttrs pid symbol quantity market_value pnl currency
        exchange_rate posBag).lookup "quantity" = some quantity
    ∧ (mkPositionAttrs pid symbol quantity market_value pnl currency
        exchange_rate posBag).lookup "market_value" = some market_value
    ∧ (mkPositionAttrs pid symbol quantity market_value pnl currency
        exchange_rate posBag).lookup "pnl" = some pnl
    ∧ (mkPositionAttrs pid symbol quantity market_value pnl currency
        exchange_rate posBag).lookup "currency" = some currency
    ∧ (mkPositionAttrs pid symbol quantity market_value pnl currency
        exchange_rate posBag).lookup "exchange_rate" = some exchange_rate
    ∧ (∀ k : String, k ∉ positionCoreNames →
        (mkPositionAttrs pid symbol quantity market_value pnl currency
          exchange_rate posBag).lookup k = posBag.lookup k)
    ∧ (mkOrderAttrs oid ordBag).lookup "id" = some oid
    ∧ (∀ k : String, k ≠ "id" →
        (mkOrderAttrs oid ordBag).lookup k = ordBag.lookup k) := by
  refine ⟨?_, ?_, ?_, ?_, ?_, ?_, ?_, ?_, ?_, ?_⟩
  · rw [mkPositionAttrs, applyKwargs_lookup]
    rfl
  · rw [mkPositionAttrs, applyKwargs_lookup]
    rfl
  · rw [mkPositionAttrs, applyKwargs_lookup]
    rfl
  · rw [mkPositionAttrs, applyKwargs_lookup]
    rfl
  · rw [mkPositionAttrs, applyKwargs_lookup]
    rfl
  · rw [mkPositionAttrs, applyKwargs_lookup]
    rfl
  · rw [mkPositionAttrs, applyKwargs_lookup]
    rfl
  · intro k hk
    rw [mkPositionAttrs, applyKwargs_lookup]
    have hnone : (positionCoreAttrs pid symbol quantity market_value pnl
        currency exchange_rate).lookup k = none := by
      simp only [positionCoreNames, List.mem_cons, List.not_mem_nil,
        or_false, not_or] at hk
      obtain ⟨h1, h2, h3, h4, h5, h6, h7⟩ := hk
      simp [positionCoreAttrs, List.lookup, beq_false_of_ne h1,
        beq_false_of_ne h2, beq_false_of_ne h3, beq_false_of_ne h4,
        beq_false_of_ne h5, beq_false_of_ne h6, beq_false_of_ne h7]
    rw [hnone]
    rfl
  · rw [mkOrderAttrs, applyKwargs_lookup]
    rfl
  · intro k hk
    rw [mkOrderAttrs, applyKwargs_lookup]
    have hnone : ([("id", oid)] : List (String × PyVal)).lookup k
        = none := by
      simp [List.lookup, beq_false_of_ne hk]
    rw [hnone]
    rfl

/-- Witness for C10 on a hostile bag that names every core field plus two
vendor fields: all core fields keep their explicit values and only the
vendor fields are attached. -/
theorem c10_attribute_bag_never_overwrites_core_witness :
    (mkPositionAttrs (.raw 0) (.raw 1) (.raw 2) (.raw 3) (.raw 4) (.raw 5)
        (.raw 6)
        [("id", .raw 90), ("symbol", .raw 91), ("quantity", .raw 92),
         ("market_value", .raw 93), ("pnl", .raw 94), ("currency", .raw 95),
         ("exchange_rate", .raw 96), ("NetPositionId", .raw 97),
         ("conid", .raw 98)]).lookup "quantity" = some (.raw 2)
    ∧ (mkPositionAttrs (.raw 0) (.raw 1) (.raw 2) (.raw 3) (.raw 4)
        (.raw 5) (.raw 6)
        [("id", .raw 90), ("symbol", .raw 91), ("quantity", .raw 92),
         ("market_value", .raw 93), ("pnl", .raw 94), ("currency", .raw 95),
         ("exchange_rate", .raw 96), ("NetPositionId", .raw 97),
         ("conid", .raw 98)]).lookup "NetPositionId" = some (.raw 97)
    ∧ (mkOrderAttrs (.raw 7) [("id", .raw 80), ("Status", .raw 81)]).lookup
        "id" = some (.raw 7)
    ∧ (mkOrderAttrs (.raw 7)
        [("id", .raw 80), ("Status", .raw 81)]).lookup "Status"
      = some (.raw 81) := by
  have h := c10_attribute_bag_never_overwrites_core (.raw 0) (.raw 1)
    (.raw 2) (.raw 3) (.raw 4) (.raw 5) (.raw 6) (.raw 7)
    [("id", .raw 90), ("symbol", .raw 91), ("quantity", .raw 92),
     ("market_value", .raw 93), ("pnl", .raw 94), ("currency", .raw 95),
     ("exchange_rate", .raw 96), ("NetPositionId", .raw 97),
     ("conid", .raw 98)]
    [("id", .raw 80), ("Status", .raw 81)]
  refine ⟨h.2.2.1, ?_, h.2.2.2.2.2.2.2.2.1, ?_⟩
  · rw [h.2.2.2.2.2.2.2.1 "NetPositionId" (by decide)]
    decide
  · rw [h.2.2.2.2.2.2.2.2.2 "Status" (by decide)]
    decide

end Ztock
